import Mathlib

/-!
Formal model of the realtime delivery subsystem of the realtime-messaging
backend (Python/FastAPI source).  Python dictionaries are modelled as
association lists in insertion order, Python sets as duplicate-free lists in
insertion order, and the fallible external stores (Redis, RabbitMQ, the
database, WebSocket sends) as explicit parameters describing the outcome of
each external call.  Each definition is a direct translation of the
corresponding Python function; the file then proves or refutes the frozen
behavioural claims about those functions.
-/

namespace RealtimeMessaging

/-! ## Association lists: the model of Python dict -/

/-- Lookup of a key in an association list (first match, as in a dict whose
keys are unique). -/
def alookup {α β : Type} [DecidableEq α] : List (α × β) → α → Option β
  | [], _ => none
  | (k, v) :: rest, k' => if k = k' then some v else alookup rest k'

/-- Setting a key in an association list: replace the first binding of the
key, or append a new binding (Python dict assignment). -/
def aset {α β : Type} [DecidableEq α] : List (α × β) → α → β → List (α × β)
  | [], k, v => [(k, v)]
  | (k', v') :: rest, k, v =>
      if k' = k then (k, v) :: rest else (k', v') :: aset rest k v

/-- Deleting a key from an association list (Python del). -/
def adel {α β : Type} [DecidableEq α] : List (α × β) → α → List (α × β)
  | [], _ => []
  | (k', v') :: rest, k =>
      if k' = k then adel rest k else (k', v') :: adel rest k

theorem alookup_aset_self {α β : Type} [DecidableEq α] (m : List (α × β)) (k : α) (v : β) :
    alookup (aset m k v) k = some v := by
  induction m with
  | nil => simp [aset, alookup]
  | cons p rest ih =>
      obtain ⟨k', v'⟩ := p
      by_cases h : k' = k
      · simp [aset, h, alookup]
      · simp [aset, h, alookup, ih]

theorem alookup_aset_ne {α β : Type} [DecidableEq α] (m : List (α × β)) (k k' : α) (v : β)
    (h : k' ≠ k) : alookup (aset m k v) k' = alookup m k' := by
  have hne : k ≠ k' := Ne.symm h
  induction m with
  | nil => simp [aset, alookup, hne]
  | cons p rest ih =>
      obtain ⟨k₁, v₁⟩ := p
      by_cases h1 : k₁ = k
      · subst h1
        simp [aset, alookup, hne]
      · simp only [aset, if_neg h1, alookup, ih]

theorem alookup_adel_self {α β : Type} [DecidableEq α] (m : List (α × β)) (k : α) :
    alookup (adel m k) k = none := by
  induction m with
  | nil => rfl
  | cons p rest ih =>
      obtain ⟨k', v'⟩ := p
      by_cases h : k' = k
      · simpa [adel, h] using ih
      · simp only [adel, if_neg h, alookup, if_neg h, ih]

theorem alookup_adel_ne {α β : Type} [DecidableEq α] (m : List (α × β)) (k k' : α)
    (h : k' ≠ k) : alookup (adel m k) k' = alookup m k' := by
  induction m with
  | nil => rfl
  | cons p rest ih =>
      obtain ⟨k₁, v₁⟩ := p
      by_cases h1 : k₁ = k
      · subst h1
        simp [adel, alookup, Ne.symm h, ih]
      · simp only [adel, if_neg h1, alookup, ih]

/-- Setting a key to the value it already holds leaves the list unchanged. -/
theorem aset_eq_self {α β : Type} [DecidableEq α] (m : List (α × β)) (k : α) (v : β)
    (h : alookup m k = some v) : aset m k v = m := by
  induction m with
  | nil => simp [alookup] at h
  | cons p rest ih =>
      obtain ⟨k', v'⟩ := p
      by_cases h1 : k' = k
      · subst h1
        simp [alookup] at h
        simp [aset, h]
      · simp [alookup, h1] at h
        simp [aset, h1, ih h]

/-! ## Rate limiter (services/message_service.py, MessageService.check_rate_limit)

The Redis counter for one sender is modelled as an optional pair of the
current value and its absolute expiry instant; GET observes nothing once the
expiry instant has passed (TTL expiry IS the window reset), SETEX installs a
fresh value with a fresh expiry, and INCR increments the value while keeping
the expiry, exactly matching the primitives the Python code issues. -/

def RATE_LIMIT_MESSAGES : Nat := 10

def RATE_LIMIT_WINDOW : Nat := 60

/-- State of the key rate_limit:messages:user in Redis: the counter value
together with the instant at which its TTL expires, or none if absent. -/
structure RateState where
  counter : Option (Nat × Nat)
deriving DecidableEq, Repr

/-- Direct translation of MessageService.check_rate_limit, evaluated at the
instant now: GET (None once expired), on miss SETEX(window, 1) and allow, on
count below the limit INCR (TTL preserved) and allow, otherwise deny. -/
def check_rate_limit (s : RateState) (now : Nat) : Bool × RateState :=
  match s.counter with
  | none => (true, ⟨some (1, now + RATE_LIMIT_WINDOW)⟩)
  | some (v, e) =>
      if now < e then
        if RATE_LIMIT_MESSAGES ≤ v then (false, s)
        else (true, ⟨some (v + 1, e)⟩)
      else (true, ⟨some (1, now + RATE_LIMIT_WINDOW)⟩)

/-- A sequence of check_rate_limit calls at the given instants, threading the
Redis state; returns the list of returned booleans and the final state. -/
def check_rate_limit_calls (s : RateState) : List Nat → List Bool × RateState
  | [] => ([], s)
  | t :: ts =>
      let r := check_rate_limit s t
      let rest := check_rate_limit_calls r.snd ts
      (r.fst :: rest.fst, rest.snd)

/-- Translation of MessageService.check_rate_limit with each Redis primitive
allowed to raise: the surrounding try/except returns True on any exception
(graceful degradation).  The three parameters are the outcomes the store
would give to GET, SETEX and INCR respectively. -/
def check_rate_limit_exc (getR : Except Unit (Option Nat)) (setexR : Except Unit Unit)
    (incrR : Except Unit Unit) : Bool :=
  match getR with
  | .error _ => true
  | .ok none =>
      match setexR with
      | .error _ => true
      | .ok _ => true
  | .ok (some count) =>
      if RATE_LIMIT_MESSAGES ≤ count then false
      else
        match incrR with
        | .error _ => true
        | .ok _ => true

/-- Within a live window (all call instants before the expiry E), a counter
that currently reads c with 1 ≤ c ≤ limit yields limit − c further allowed
calls and then denials, and the counter saturates at the limit with its
expiry unchanged. -/
theorem check_rate_limit_calls_in_window (ts : List Nat) (c E : Nat)
    (hc : 1 ≤ c) (hc10 : c ≤ RATE_LIMIT_MESSAGES) (h : ∀ t ∈ ts, t < E) :
    check_rate_limit_calls ⟨some (c, E)⟩ ts =
      (List.replicate (min ts.length (RATE_LIMIT_MESSAGES - c)) true
          ++ List.replicate (ts.length - (RATE_LIMIT_MESSAGES - c)) false,
       ⟨some (min (c + ts.length) RATE_LIMIT_MESSAGES, E)⟩) := by
  induction ts generalizing c with
  | nil =>
      simp only [check_rate_limit_calls, List.length_nil, Nat.min_zero, Nat.zero_min,
        List.replicate_zero, Nat.zero_sub, List.append_nil, List.nil_append, Nat.add_zero]
      rw [Nat.min_eq_left hc10]
  | cons t ts ih =>
      have ht : t < E := h t (List.mem_cons_self t ts)
      have htail : ∀ x ∈ ts, x < E := fun x hx => h x (List.mem_cons_of_mem t hx)
      by_cases hge : RATE_LIMIT_MESSAGES ≤ c
      · have hceq : c = RATE_LIMIT_MESSAGES := Nat.le_antisymm hc10 hge
        have hrec := ih c hc hc10 htail
        subst hceq
        simp only [check_rate_limit_calls, check_rate_limit, if_pos ht, if_pos hge, hrec]
        simp only [RATE_LIMIT_MESSAGES] at *
        have e1 : min (ts.length + 1) (10 - 10) = 0 := by omega
        have e2 : (ts.length + 1) - (10 - 10) = ts.length + 1 := by omega
        have e3 : min ts.length (10 - 10) = 0 := by omega
        have e4 : ts.length - (10 - 10) = ts.length := by omega
        have e5 : min (10 + ts.length) 10 = 10 := by omega
        have e6 : min (10 + (ts.length + 1)) 10 = 10 := by omega
        simp [e1, e2, e3, e4, e5, e6, List.replicate_succ]
      · have hlt : c < RATE_LIMIT_MESSAGES := Nat.lt_of_not_le hge
        have hrec := ih (c + 1) (Nat.le_succ_of_le hc) hlt htail
        simp only [check_rate_limit_calls, check_rate_limit, if_pos ht, if_neg hge, hrec]
        simp only [RATE_LIMIT_MESSAGES] at *
        have e1 : min (ts.length + 1) (10 - c) = min ts.length (10 - (c + 1)) + 1 := by omega
        have e2 : (ts.length + 1) - (10 - c) = ts.length - (10 - (c + 1)) := by omega
        have e3 : c + 1 + ts.length = c + (ts.length + 1) := by omega
        simp [List.length_cons, e1, e2, e3, List.replicate_succ]

/-- C4: starting with no counter, the first call of a window allows and sets
the counter to 1 with a window-length TTL; within that window the first 10
calls (the first included) allow and every further call denies; any call at
or after the expiry instant allows again and starts a fresh window with
counter 1. -/
theorem rate_limit_fixed_window (t0 : Nat) (rest : List Nat)
    (hwin : ∀ t ∈ rest, t0 ≤ t ∧ t < t0 + RATE_LIMIT_WINDOW) :
    (check_rate_limit_calls ⟨none⟩ (t0 :: rest)).fst =
        List.replicate (min (rest.length + 1) RATE_LIMIT_MESSAGES) true
          ++ List.replicate (rest.length + 1 - RATE_LIMIT_MESSAGES) false
    ∧ ∀ t', t0 + RATE_LIMIT_WINDOW ≤ t' →
        check_rate_limit (check_rate_limit_calls ⟨none⟩ (t0 :: rest)).snd t'
          = (true, ⟨some (1, t' + RATE_LIMIT_WINDOW)⟩) := by
  have hone : 1 ≤ RATE_LIMIT_MESSAGES := by simp [RATE_LIMIT_MESSAGES]
  have htail : ∀ t ∈ rest, t < t0 + RATE_LIMIT_WINDOW := fun t ht => (hwin t ht).2
  have hrec := check_rate_limit_calls_in_window rest 1 (t0 + RATE_LIMIT_WINDOW)
    (Nat.le_refl 1) hone htail
  have hfirst : check_rate_limit_calls ⟨none⟩ (t0 :: rest) =
      ((check_rate_limit_calls ⟨some (1, t0 + RATE_LIMIT_WINDOW)⟩ rest).fst.cons true,
       (check_rate_limit_calls ⟨some (1, t0 + RATE_LIMIT_WINDOW)⟩ rest).snd) := by
    simp [check_rate_limit_calls, check_rate_limit]
  constructor
  · rw [hfirst]
    simp only [hrec]
    simp only [RATE_LIMIT_MESSAGES]
    have e1 : min (rest.length + 1) 10 = min rest.length (10 - 1) + 1 := by omega
    have e2 : (rest.length + 1) - 10 = rest.length - (10 - 1) := by omega
    simp [e1, e2, List.replicate_succ]
  · intro t' ht'
    rw [hfirst]
    simp only [hrec]
    have : ¬ t' < t0 + RATE_LIMIT_WINDOW := Nat.not_lt.mpr ht'
    simp [check_rate_limit, this]

/-- Witness for rate_limit_fixed_window: eleven calls at instant 0 from a
fresh counter allow ten times then deny, and a call at instant 60 allows
again with a fresh counter of 1. -/
theorem rate_limit_fixed_window_witness :
    (check_rate_limit_calls ⟨none⟩ (0 :: List.replicate 10 0)).fst
        = List.replicate 10 true ++ [false]
      ∧ check_rate_limit (check_rate_limit_calls ⟨none⟩ (0 :: List.replicate 10 0)).snd 60
          = (true, ⟨some (1, 120)⟩) := by
  have h := rate_limit_fixed_window 0 (List.replicate 10 0) (by
    intro t ht
    have := List.eq_of_mem_replicate ht
    subst this
    exact ⟨Nat.le_refl 0, by decide⟩)
  refine ⟨?_, ?_⟩
  · rw [h.1]
    decide
  · exact h.2 60 (by decide)

/-- C5: the rate limiter fails open.  If the GET against the counter store
raises, or the SETEX after a miss raises, or the INCR after an
under-the-limit read raises, check_rate_limit returns true. -/
theorem rate_limit_fails_open (setexR : Except Unit Unit) (incrR : Except Unit Unit)
    (count : Nat) :
    check_rate_limit_exc (.error ()) setexR incrR = true
    ∧ check_rate_limit_exc (.ok none) (.error ()) incrR = true
    ∧ (count < RATE_LIMIT_MESSAGES →
        check_rate_limit_exc (.ok (some count)) setexR (.error ()) = true) := by
  refine ⟨rfl, rfl, ?_⟩
  intro h
  simp [check_rate_limit_exc, Nat.not_le.mpr h]

/-- Witness for rate_limit_fails_open at concrete store outcomes. -/
theorem rate_limit_fails_open_witness :
    check_rate_limit_exc (.error ()) (.ok ()) (.ok ()) = true
    ∧ check_rate_limit_exc (.ok none) (.error ()) (.ok ()) = true
    ∧ check_rate_limit_exc (.ok (some 5)) (.ok ()) (.error ()) = true :=
  ⟨(rate_limit_fails_open (.ok ()) (.ok ()) 5).1,
   (rate_limit_fails_open (.ok ()) (.ok ()) 5).2.1,
   (rate_limit_fails_open (.ok ()) (.ok ()) 5).2.2 (by decide)⟩

/-! ## Message content validation (models/message.py, MessageCreateInternal)

Pydantic first enforces the Field constraints min_length=1 and max_length=500
on the raw string, then runs the after-mode field validator, which rejects a
value whose strip() is empty, strips it, re-checks the (now unreachable)
length bound on the stripped value, and returns the stripped value as the
stored content. -/

/-- Whitespace characters recognised by the default str.strip() for the
character range the repository handles. -/
def py_whitespace (c : Char) : Bool :=
  c = ' ' ∨ c = '\t' ∨ c = '\n' ∨ c = '\r' ∨ c = '\x0b' ∨ c = '\x0c'

/-- Python str.strip(): drop leading and trailing whitespace. -/
def pyStrip (s : String) : String :=
  ⟨(((s.data.dropWhile py_whitespace).reverse.dropWhile py_whitespace).reverse)⟩

/-- Translation of the content field of MessageCreateInternal: the Field
constraints on the raw value, then the validate_content field validator.
The error payloads abbreviate pydantic's messages. -/
def validate_content (v : String) : Except String String :=
  if v.length < 1 then .error "string_too_short"
  else if 500 < v.length then .error "string_too_long"
  else if v = "" ∨ pyStrip v = "" then .error "Message content cannot be empty"
  else
    let cleaned := pyStrip v
    if cleaned.length = 0 then .error "Message content cannot be empty"
    else if 500 < cleaned.length then .error "Message content must be 500 characters or less"
    else .ok cleaned

theorem dropWhile_self {α : Type} (p : α → Bool) (l : List α) :
    List.dropWhile p (List.dropWhile p l) = List.dropWhile p l := by
  induction l with
  | nil => rfl
  | cons a l ih =>
      by_cases h : p a
      · simp [List.dropWhile_cons, h, ih]
      · simp [List.dropWhile_cons, h]

theorem pyStrip_length_le (s : String) : (pyStrip s).length ≤ s.length := by
  obtain ⟨l⟩ := s
  simp only [pyStrip, String.length]
  calc ((List.dropWhile py_whitespace
            (List.dropWhile py_whitespace l).reverse).reverse).length
      = (List.dropWhile py_whitespace
            (List.dropWhile py_whitespace l).reverse).length := List.length_reverse _
    _ ≤ (List.dropWhile py_whitespace l).reverse.length :=
        (List.dropWhile_sublist _).length_le
    _ = (List.dropWhile py_whitespace l).length := List.length_reverse _
    _ ≤ l.length := (List.dropWhile_sublist _).length_le

theorem string_length_eq_zero (s : String) : s.length = 0 ↔ s = "" := by
  obtain ⟨l⟩ := s
  simp only [String.length]
  constructor
  · intro h
    have hl : l = [] := List.length_eq_zero.mp h
    subst hl
    rfl
  · intro h
    have hl : l = [] := congrArg String.data h
    simp [hl]

/-- Whether validation accepted the submitted content. -/
def accepts (r : Except String String) : Bool :=
  match r with
  | .ok _ => true
  | .error _ => false

/-- Closed-form characterisation of validate_content: the raw length bounds
are checked before the validator ever strips, and the stripped length
re-check is unreachable. -/
theorem validate_content_eq (v : String) :
    validate_content v =
      if v.length < 1 then .error "string_too_short"
      else if 500 < v.length then .error "string_too_long"
      else if pyStrip v = "" then .error "Message content cannot be empty"
      else .ok (pyStrip v) := by
  unfold validate_content
  by_cases h1 : v.length < 1
  · simp [h1]
  · simp only [if_neg h1]
    by_cases h2 : 500 < v.length
    · simp [h2]
    · simp only [if_neg h2]
      by_cases h3 : pyStrip v = ""
      · simp [h3]
      · have hv : ¬ v = "" := by
          intro hv
          rw [hv] at h1
          exact h1 (by decide)
        simp only [if_neg (show ¬ (v = "" ∨ pyStrip v = "") by tauto), if_neg h3]
        have hc0 : ¬ (pyStrip v).length = 0 :=
          fun h => h3 ((string_length_eq_zero _).mp h)
        have hc5 : ¬ 500 < (pyStrip v).length :=
          fun h => h2 (Nat.lt_of_lt_of_le h (pyStrip_length_le v))
        simp [hc0, hc5]

set_option maxRecDepth 8000 in
/-- C6 counterexample: a content of one space followed by 500 letters is
nonempty and at most 500 characters after trimming, so the claim says it is
accepted, but validation rejects it (the max_length Field constraint applies
to the raw, untrimmed value). -/
theorem content_validation_counterexample :
    (pyStrip (String.mk (' ' :: List.replicate 500 'a')) ≠ ""
      ∧ (pyStrip (String.mk (' ' :: List.replicate 500 'a'))).length ≤ 500)
    ∧ accepts (validate_content (String.mk (' ' :: List.replicate 500 'a'))) = false := by
  refine ⟨⟨by decide, by decide⟩, by decide⟩

/-- C6 (amended): submission-time content validation accepts exactly the
contents whose raw length is at most 500 and whose trimmed value is
nonempty (so the 500-character limit is enforced on the untrimmed value);
accepted content is returned, hence persisted, in trimmed form. -/
theorem content_validation_amended (v : String) :
    (accepts (validate_content v) = true ↔ (v.length ≤ 500 ∧ pyStrip v ≠ ""))
    ∧ (∀ r, validate_content v = .ok r → r = pyStrip v) := by
  rw [validate_content_eq]
  refine ⟨⟨?_, ?_⟩, ?_⟩
  · intro h
    by_cases h1 : v.length < 1
    · rw [if_pos h1] at h
      simp [accepts] at h
    · rw [if_neg h1] at h
      by_cases h2 : 500 < v.length
      · rw [if_pos h2] at h
        simp [accepts] at h
      · rw [if_neg h2] at h
        by_cases h3 : pyStrip v = ""
        · rw [if_pos h3] at h
          simp [accepts] at h
        · exact ⟨Nat.le_of_not_lt h2, h3⟩
  · rintro ⟨hle, hne⟩
    have h1 : ¬ v.length < 1 := by
      intro h
      have hv : v = "" := (string_length_eq_zero v).mp (by omega)
      rw [hv] at hne
      exact hne rfl
    rw [if_neg h1, if_neg (Nat.not_lt.mpr hle), if_neg hne]
    rfl
  · intro r hr
    by_cases h1 : v.length < 1
    · rw [if_pos h1] at hr
      cases hr
    · rw [if_neg h1] at hr
      by_cases h2 : 500 < v.length
      · rw [if_pos h2] at hr
        cases hr
      · rw [if_neg h2] at hr
        by_cases h3 : pyStrip v = ""
        · rw [if_pos h3] at hr
          cases hr
        · rw [if_neg h3] at hr
          injection hr with h
          exact h.symm

/-- Witness for content_validation_amended: two spaces around hi pass both
acceptance conditions, the theorem then certifies acceptance, and the
accepted value is the trimmed hi. -/
theorem content_validation_amended_witness :
    ("  hi  ".length ≤ 500 ∧ pyStrip "  hi  " ≠ "")
    ∧ accepts (validate_content "  hi  ") = true
    ∧ validate_content "  hi  " = .ok "hi" := by
  refine ⟨by decide, (content_validation_amended "  hi  ").1.mpr (by decide), rfl⟩

/-! ## Chat connection manager (websocket/chat.py, ConnectionManager)

Connections are opaque handles (Nat).  room_connections, connection_users and
typing_users are the three dicts of the manager; Python sets are
duplicate-free lists in insertion order, whose order stands for the
(unspecified) set iteration order.  WebSocket sends are modelled as emitted
(connection, frame) pairs and are assumed to succeed; the claims under
verification only concern registry bookkeeping and emission order, not the
broken-connection cascade. -/

/-- The per-connection user info dict stored by ConnectionManager.connect. -/
structure UserInfo where
  user_id : String
  username : String
  display_name : String
  room_id : String
deriving DecidableEq, Repr

/-- Server-to-client frames, with the timestamp fields elided (wall-clock
values that no claim mentions). -/
inductive Frame where
  | userJoined (user_id username display_name : String)
  | userLeft (user_id username display_name : String)
  | userTyping (user_id username display_name : String)
  | userStoppedTyping (user_id username display_name : String)
  | newMessage (message_id room_id sender_id sender_username sender_display_name
      content : String)
  | messageSent (message_id : String)
  | messageError (error : String)
  | rateLimitExceeded
  | pong
  | errorFrame (error : String)
deriving DecidableEq, Repr

/-- State of the ConnectionManager: its three dictionaries. -/
structure ManagerState where
  room_connections : List (String × List Nat)
  connection_users : List (Nat × UserInfo)
  typing_users : List (String × List String)
deriving DecidableEq, Repr

/-- Python set add: append if absent. -/
def setAdd {α : Type} [DecidableEq α] (l : List α) (x : α) : List α :=
  if x ∈ l then l else l ++ [x]

/-- Python set discard. -/
def setDiscard {α : Type} [DecidableEq α] (l : List α) (x : α) : List α :=
  l.filter (fun y => y ≠ x)

namespace ConnectionManager

/-- ConnectionManager.broadcast_to_room: emit the frame to every connection
of the room except the excluded one; an absent room yields no recipients. -/
def broadcast_to_room (s : ManagerState) (room_id : String) (msg : Frame)
    (exclude : Option Nat) : List (Nat × Frame) :=
  match alookup s.room_connections room_id with
  | none => []
  | some conns =>
      (conns.filter (fun c => some c ≠ exclude)).map (fun c => (c, msg))

/-- ConnectionManager.connect: add the connection to the room's set
(creating the entry), store the user info, and announce user_joined to the
other connections of the room. -/
def connect (s : ManagerState) (ws : Nat) (u : UserInfo) :
    ManagerState × List (Nat × Frame) :=
  let rc :=
    match alookup s.room_connections u.room_id with
    | none => aset s.room_connections u.room_id [ws]
    | some conns => aset s.room_connections u.room_id (setAdd conns ws)
  let s' : ManagerState :=
    { s with room_connections := rc, connection_users := aset s.connection_users ws u }
  (s', broadcast_to_room s' u.room_id
        (.userJoined u.user_id u.username u.display_name) (some ws))

/-- ConnectionManager.disconnect: for a registered connection, remove it from
its room's set (deleting the entry when it empties), remove its user from
the room's typing set (deleting the entry when it empties), drop its user
info, and announce user_left to the remaining connections of the room.
Unregistered connections are a no-op. -/
def disconnect (s : ManagerState) (ws : Nat) :
    ManagerState × List (Nat × Frame) :=
  match alookup s.connection_users ws with
  | none => (s, [])
  | some info =>
      let rc :=
        match alookup s.room_connections info.room_id with
        | none => s.room_connections
        | some conns =>
            let conns' := setDiscard conns ws
            if conns'.isEmpty then adel s.room_connections info.room_id
            else aset s.room_connections info.room_id conns'
      let tu :=
        match alookup s.typing_users info.room_id with
        | none => s.typing_users
        | some typing =>
            let typing' := setDiscard typing info.user_id
            if typing'.isEmpty then adel s.typing_users info.room_id
            else aset s.typing_users info.room_id typing'
      let s' : ManagerState :=
        ⟨rc, adel s.connection_users ws, tu⟩
      (s', broadcast_to_room s' info.room_id
            (.userLeft info.user_id info.username info.display_name) none)

/-- ConnectionManager.handle_typing_stop: for a registered connection, remove
its user from the room's typing set (deleting the entry when it empties) and
broadcast user_stopped_typing to the other connections of the room —
unconditionally, whether or not the user was in the typing set. -/
def handle_typing_stop (s : ManagerState) (ws : Nat) (room_id : String) :
    ManagerState × List (Nat × Frame) :=
  match alookup s.connection_users ws with
  | none => (s, [])
  | some info =>
      let tu :=
        match alookup s.typing_users room_id with
        | none => s.typing_users
        | some typing =>
            let typing' := setDiscard typing info.user_id
            if typing'.isEmpty then adel s.typing_users room_id
            else aset s.typing_users room_id typing'
      let s' : ManagerState := { s with typing_users := tu }
      (s', broadcast_to_room s' room_id
            (.userStoppedTyping info.user_id info.username info.display_name) (some ws))

end ConnectionManager

/-- No dangling room keys: every entry of room_connections is nonempty. -/
def no_empty_rooms (s : ManagerState) : Bool :=
  s.room_connections.all (fun p => !p.2.isEmpty)

/-- No dangling typing keys: every entry of typing_users is nonempty. -/
def no_empty_typing (s : ManagerState) : Bool :=
  s.typing_users.all (fun p => !p.2.isEmpty)

theorem all_aset {α β : Type} [DecidableEq α] (P : α × β → Bool) (m : List (α × β))
    (k : α) (v : β) (hm : m.all P = true) (hv : P (k, v) = true) :
    (aset m k v).all P = true := by
  induction m with
  | nil => simp [aset, hv]
  | cons p rest ih =>
      obtain ⟨k', v'⟩ := p
      simp only [List.all_cons, Bool.and_eq_true] at hm
      by_cases h : k' = k
      · simp only [aset, if_pos h, List.all_cons, Bool.and_eq_true]
        exact ⟨hv, hm.2⟩
      · simp only [aset, if_neg h, List.all_cons, Bool.and_eq_true]
        exact ⟨hm.1, ih hm.2⟩

theorem all_adel {α β : Type} [DecidableEq α] (P : α × β → Bool) (m : List (α × β))
    (k : α) (hm : m.all P = true) : (adel m k).all P = true := by
  induction m with
  | nil => simp [adel]
  | cons p rest ih =>
      obtain ⟨k', v'⟩ := p
      simp only [List.all_cons, Bool.and_eq_true] at hm
      by_cases h : k' = k
      · simp only [adel, if_pos h]
        exact ih hm.2
      · simp only [adel, if_neg h, List.all_cons, Bool.and_eq_true]
        exact ⟨hm.1, ih hm.2⟩

/-- C7: the room registry never keeps an entry for a room with zero
connections.  Connecting a connection to a previously absent room and then
disconnecting that same connection leaves the room absent again;
disconnecting the last connection of any room deletes the room's entry; and
both connect and disconnect preserve the absence of empty room entries. -/
theorem room_registry_no_empty_entries (s : ManagerState) (ws : Nat) (u : UserInfo) :
    (alookup s.room_connections u.room_id = none →
      alookup (ConnectionManager.disconnect
          (ConnectionManager.connect s ws u).fst ws).fst.room_connections u.room_id
        = none)
    ∧ (∀ info conns, alookup s.connection_users ws = some info →
        alookup s.room_connections info.room_id = some conns →
        setDiscard conns ws = [] →
        alookup (ConnectionManager.disconnect s ws).fst.room_connections info.room_id
          = none)
    ∧ (no_empty_rooms s = true →
        no_empty_rooms (ConnectionManager.connect s ws u).fst = true)
    ∧ (no_empty_rooms s = true →
        no_empty_rooms (ConnectionManager.disconnect s ws).fst = true) := by
  refine ⟨?_, ?_, ?_, ?_⟩
  · intro h
    simp only [ConnectionManager.connect, h]
    simp only [ConnectionManager.disconnect, alookup_aset_self]
    simp [setDiscard, alookup_adel_self]
  · intro info conns hcu hrc hlast
    simp only [ConnectionManager.disconnect, hcu, hrc, hlast]
    simp [alookup_adel_self]
  · intro hne
    simp only [ConnectionManager.connect, no_empty_rooms] at *
    cases h : alookup s.room_connections u.room_id with
    | none =>
        simp only [h]
        exact all_aset _ _ _ _ hne (by simp)
    | some conns =>
        simp only [h]
        refine all_aset _ _ _ _ hne ?_
        by_cases hmem : ws ∈ conns
        · simp only [setAdd, if_pos hmem]
          cases conns with
          | nil => cases hmem
          | cons a l => simp
        · simp [setAdd, hmem]
  · intro hne
    simp only [ConnectionManager.disconnect]
    cases hcu : alookup s.connection_users ws with
    | none => simpa using hne
    | some info =>
        simp only [no_empty_rooms] at *
        cases hrc : alookup s.room_connections info.room_id with
        | none => simpa using hne
        | some conns =>
            by_cases hemp : (setDiscard conns ws).isEmpty

            · simp only [hemp, if_pos rfl]
              simpa using all_adel _ _ _ hne
            · simp only [hemp]
              simp only [Bool.false_eq_true, if_false]
              refine all_aset _ _ _ _ hne ?_
              simp only [Bool.not_eq_true'] at hemp ⊢
              simpa using hemp

/-- Witness for room_registry_no_empty_entries at concrete states: connect
then disconnect of connection 0 on an initially empty registry leaves room r
absent; disconnecting the last connection 1 of room r deletes the entry; the
invariant checks hold on the corresponding concrete states. -/
theorem room_registry_no_empty_entries_witness :
    alookup (ConnectionManager.disconnect
        (ConnectionManager.connect ⟨[], [], []⟩ 0 ⟨"a", "alice", "Alice", "r"⟩).fst
        0).fst.room_connections "r" = none
    ∧ alookup (ConnectionManager.disconnect
        ⟨[("r", [1])], [(1, ⟨"b", "bob", "Bob", "r"⟩)], []⟩ 1).fst.room_connections "r"
        = none
    ∧ no_empty_rooms (ConnectionManager.connect
        ⟨[("r", [1])], [(1, ⟨"b", "bob", "Bob", "r"⟩)], []⟩ 0
        ⟨"a", "alice", "Alice", "r"⟩).fst = true
    ∧ no_empty_rooms (ConnectionManager.disconnect
        ⟨[("r", [1])], [(1, ⟨"b", "bob", "Bob", "r"⟩)], []⟩ 1).fst = true := by
  refine ⟨?_, ?_, ?_, ?_⟩
  · exact (room_registry_no_empty_entries ⟨[], [], []⟩ 0 ⟨"a", "alice", "Alice", "r"⟩).1
      (by decide)
  · exact (room_registry_no_empty_entries
        ⟨[("r", [1])], [(1, ⟨"b", "bob", "Bob", "r"⟩)], []⟩ 1
        ⟨"a", "alice", "Alice", "r"⟩).2.1
      ⟨"b", "bob", "Bob", "r"⟩ [1] (by decide) (by decide) (by decide)
  · exact (room_registry_no_empty_entries
        ⟨[("r", [1])], [(1, ⟨"b", "bob", "Bob", "r"⟩)], []⟩ 0
        ⟨"a", "alice", "Alice", "r"⟩).2.2.1 (by decide)
  · exact (room_registry_no_empty_entries
        ⟨[("r", [1])], [(1, ⟨"b", "bob", "Bob", "r"⟩)], []⟩ 1
        ⟨"a", "alice", "Alice", "r"⟩).2.2.2 (by decide)

theorem all_alookup {α β : Type} [DecidableEq α] (P : α × β → Bool) (m : List (α × β))
    (k : α) (v : β) (hm : m.all P = true) (h : alookup m k = some v) :
    P (k, v) = true := by
  induction m with
  | nil => cases h
  | cons p rest ih =>
      obtain ⟨k', v'⟩ := p
      simp only [List.all_cons, Bool.and_eq_true] at hm
      by_cases hk : k' = k
      · subst hk
        simp only [alookup, if_pos rfl] at h
        cases h
        exact hm.1
      · simp only [alookup, if_neg hk] at h
        exact ih hm.2 h

/-- C9 counterexample: in a two-connection room with nobody typing, a
typing-stop from connection 0 (whose user a is not in the typing set) still
emits a user_stopped_typing broadcast to the other connection, contradicting
the claim that no broadcast is emitted. -/
theorem typing_stop_counterexample :
    ("a" ∉ ((alookup (⟨[("r", [0, 1])],
        [(0, ⟨"a", "alice", "Alice", "r"⟩), (1, ⟨"b", "bob", "Bob", "r"⟩)],
        []⟩ : ManagerState).typing_users "r").getD []))
    ∧ (ConnectionManager.handle_typing_stop
        ⟨[("r", [0, 1])],
         [(0, ⟨"a", "alice", "Alice", "r"⟩), (1, ⟨"b", "bob", "Bob", "r"⟩)],
         []⟩ 0 "r").snd
        = [(1, Frame.userStoppedTyping "a" "alice" "Alice")] := by
  exact ⟨by decide, by decide⟩

/-- C9 (amended): a typing-stop for a registered connection whose user is not
in the room's typing set leaves the manager state entirely unchanged and
raises no error, but it still emits a user_stopped_typing broadcast to the
other connections of the room. -/
theorem typing_stop_when_not_typing (s : ManagerState) (ws : Nat) (room_id : String)
    (info : UserInfo)
    (hcu : alookup s.connection_users ws = some info)
    (hne : no_empty_typing s = true)
    (hnot : info.user_id ∉ (alookup s.typing_users room_id).getD []) :
    ConnectionManager.handle_typing_stop s ws room_id =
      (s, ConnectionManager.broadcast_to_room s room_id
            (.userStoppedTyping info.user_id info.username info.display_name)
            (some ws)) := by
  simp only [ConnectionManager.handle_typing_stop, hcu]
  cases htu : alookup s.typing_users room_id with
  | none => rfl
  | some typing =>
      have hmem : info.user_id ∉ typing := by
        simpa [htu] using hnot
      have hfix : setDiscard typing info.user_id = typing := by
        refine List.filter_eq_self.mpr ?_
        intro a ha
        simp only [ne_eq, decide_eq_true_eq]
        intro hh
        exact hmem (hh ▸ ha)
      have hval := all_alookup _ _ _ _ hne htu
      have hnonempty : typing.isEmpty = false := by
        simpa using hval
      simp only [hfix, hnonempty, Bool.false_eq_true, if_false]
      rw [aset_eq_self _ _ _ htu]

/-- Witness for typing_stop_when_not_typing at a concrete two-connection
room with an empty typing map. -/
theorem typing_stop_when_not_typing_witness :
    ConnectionManager.handle_typing_stop
        (⟨[("r", [0, 1])],
          [(0, ⟨"a", "alice", "Alice", "r"⟩), (1, ⟨"b", "bob", "Bob", "r"⟩)],
          []⟩ : ManagerState) 0 "r"
      = (⟨[("r", [0, 1])],
          [(0, ⟨"a", "alice", "Alice", "r"⟩), (1, ⟨"b", "bob", "Bob", "r"⟩)],
          []⟩,
         ConnectionManager.broadcast_to_room
           (⟨[("r", [0, 1])],
             [(0, ⟨"a", "alice", "Alice", "r"⟩), (1, ⟨"b", "bob", "Bob", "r"⟩)],
             []⟩ : ManagerState) "r"
           (.userStoppedTyping "a" "alice" "Alice") (some 0)) := by
  exact typing_stop_when_not_typing _ 0 "r" ⟨"a", "alice", "Alice", "r"⟩
    (by decide) (by decide) (by decide)

/-! ## Sending a message over the chat socket (websocket/chat.py,
handle_send_message)

The database of persisted messages is a list in insertion order;
create_message appends a row, and get_room_messages with limit 1 returns the
newest row of the room, i.e. the last inserted one.  The sender row of the
join in get_room_messages is supplied by the lookup_user parameter
(user_id to username and display_name).  The handler runs sequentially and
all sends succeed; the parameters new_mid and rate_ok stand for the
generated message id and the rate-limiter outcome. -/

/-- A persisted message row. -/
structure MsgRow where
  message_id : String
  room_id : String
  sender_id : String
  content : String
deriving DecidableEq, Repr

/-- The sending user as known to the protocol handler. -/
structure UserRec where
  user_id : String
  username : String
  display_name : String
deriving DecidableEq, Repr

/-- Translation of handle_send_message: reject a missing or
whitespace-only content with message_error; reject over the rate limit with
rate_limit_exceeded; otherwise validate the stripped content through
MessageCreateInternal (a validation error surfaces as a generic
message_error), persist the row, re-query the newest room message, broadcast
new_message to the whole room with no exclusion, send message_sent to the
sender, and finally trigger notification creation (which emits no chat
frames).  Returns the emitted (connection, frame) list and the new
database. -/
def handle_send_message (s : ManagerState) (db : List MsgRow) (ws : Nat)
    (sender : UserRec) (room_id : String) (content? : Option String)
    (rate_ok : Bool) (new_mid : String) (lookup_user : String → String × String) :
    List (Nat × Frame) × List MsgRow :=
  match content? with
  | none => ([(ws, .messageError "Message content is required")], db)
  | some content =>
      if pyStrip content = "" then
        ([(ws, .messageError "Message content is required")], db)
      else if !rate_ok then
        ([(ws, .rateLimitExceeded)], db)
      else
        match validate_content (pyStrip content) with
        | .error _ => ([(ws, .messageError "Failed to send message")], db)
        | .ok cleaned =>
            let row : MsgRow := ⟨new_mid, room_id, sender.user_id, cleaned⟩
            let db' := db ++ [row]
            match (db'.filter (fun m => m.room_id = room_id)).getLast? with
            | none => ([], db')
            | some m =>
                let names := lookup_user m.sender_id
                let bcast := ConnectionManager.broadcast_to_room s room_id
                  (.newMessage m.message_id m.room_id m.sender_id names.fst names.snd
                    m.content) none
                (bcast ++ [(ws, .messageSent m.message_id)], db')

/-- A concrete user-name lookup for the two demo users a and b. -/
def lookup_user_ab : String → String × String :=
  fun uid => if uid = "a" then ("alice", "Alice") else ("bob", "Bob")

/-- C2 counterexample: in a room with sender connection 0 (user a) and other
connection 1 (user b), a valid send_message emits the new_message broadcast
FIRST — and delivers it to the sender's own connection 0 — before the
message_sent ack, contradicting the claimed ack-first order and the claimed
exclusion of the sender from the broadcast. -/
theorem send_message_counterexample :
    ((handle_send_message
        ⟨[("r", [0, 1])],
         [(0, ⟨"a", "alice", "Alice", "r"⟩), (1, ⟨"b", "bob", "Bob", "r"⟩)], []⟩
        [] 0 ⟨"a", "alice", "Alice"⟩ "r" (some "hello") true "m1"
        lookup_user_ab).fst.head?
      = some (0, Frame.newMessage "m1" "r" "a" "alice" "Alice" "hello"))
    ∧ (0, Frame.newMessage "m1" "r" "a" "alice" "Alice" "hello")
        ∈ (handle_send_message
            ⟨[("r", [0, 1])],
             [(0, ⟨"a", "alice", "Alice", "r"⟩), (1, ⟨"b", "bob", "Bob", "r"⟩)], []⟩
            [] 0 ⟨"a", "alice", "Alice"⟩ "r" (some "hello") true "m1"
            lookup_user_ab).fst := by
  exact ⟨by decide, by decide⟩

/-- C2 (amended): a valid send_message from a participant emits, in order,
first a new_message broadcast delivered to every connection currently in the
room — the sender's connection included — and then a message_sent ack to the
sending connection, the broadcast and the ack carrying the same
message_id. -/
theorem send_message_broadcast_then_ack (s : ManagerState) (db : List MsgRow)
    (ws : Nat) (sender : UserRec) (room_id content new_mid : String)
    (lookup_user : String → String × String) (conns : List Nat) (cleaned : String)
    (hroom : alookup s.room_connections room_id = some conns)
    (hstrip : pyStrip content ≠ "")
    (hval : validate_content (pyStrip content) = .ok cleaned)
    (hlu : lookup_user sender.user_id = (sender.username, sender.display_name)) :
    (handle_send_message s db ws sender room_id (some content) true new_mid
        lookup_user).fst
      = conns.map (fun c => (c, Frame.newMessage new_mid room_id sender.user_id
            sender.username sender.display_name cleaned))
        ++ [(ws, Frame.messageSent new_mid)] := by
  have hlast : ((db ++ [(⟨new_mid, room_id, sender.user_id, cleaned⟩ : MsgRow)]).filter
      (fun m => m.room_id = room_id)).getLast?
        = some ⟨new_mid, room_id, sender.user_id, cleaned⟩ := by
    rw [List.filter_append]
    simp [List.getLast?_concat]
  simp only [handle_send_message, if_neg hstrip, Bool.not_true, Bool.false_eq_true,
    if_false, hval, hlast]
  simp [ConnectionManager.broadcast_to_room, hroom, hlu]

/-- Witness for send_message_broadcast_then_ack on the two-connection demo
room: the full emission list is the broadcast to connections 0 and 1
followed by the ack to the sender. -/
theorem send_message_broadcast_then_ack_witness :
    (handle_send_message
        ⟨[("r", [0, 1])],
         [(0, ⟨"a", "alice", "Alice", "r"⟩), (1, ⟨"b", "bob", "Bob", "r"⟩)], []⟩
        [] 0 ⟨"a", "alice", "Alice"⟩ "r" (some "hello") true "m1"
        lookup_user_ab).fst
      = [(0, Frame.newMessage "m1" "r" "a" "alice" "Alice" "hello"),
         (1, Frame.newMessage "m1" "r" "a" "alice" "Alice" "hello"),
         (0, Frame.messageSent "m1")] := by
  have h := send_message_broadcast_then_ack
    ⟨[("r", [0, 1])],
     [(0, ⟨"a", "alice", "Alice", "r"⟩), (1, ⟨"b", "bob", "Bob", "r"⟩)], []⟩
    [] 0 ⟨"a", "alice", "Alice"⟩ "r" "hello" "m1" lookup_user_ab [0, 1] "hello"
    (by decide) (by decide) rfl (by decide)
  rw [h]
  decide

/-! ## Notification connection registry (websocket/notification_manager.py,
NotificationManager)

active_connections maps user ids to the set of that user's notification
sockets.  The outcome of writing the payload to each socket is given by the
send_ok parameter; send_notification_to_user returns whether at least one
write succeeded, the new registry state, and the list of connections that
received the payload. -/

/-- The active_connections dict of the NotificationManager. -/
def NotifState : Type := List (String × List Nat)

/-- No dangling user keys: every entry of active_connections is nonempty. -/
def no_empty_users (s : NotifState) : Bool :=
  s.all (fun p => !p.2.isEmpty)

namespace NotificationManager

/-- NotificationManager.connect: add the socket to the user's set, creating
the entry (the initial unread-count push writes no registry state and is
elided). -/
def connect (s : NotifState) (ws : Nat) (user_id : String) : NotifState :=
  match alookup s user_id with
  | none => aset s user_id [ws]
  | some conns => aset s user_id (setAdd conns ws)

/-- NotificationManager.disconnect: discard the socket from the user's set
and delete the entry once it is empty. -/
def disconnect (s : NotifState) (ws : Nat) (user_id : String) : NotifState :=
  match alookup s user_id with
  | none => s
  | some conns =>
      let conns' := setDiscard conns ws
      if conns'.isEmpty then adel s user_id else aset s user_id conns'

/-- NotificationManager.send_notification_to_user: with no entry for the
user, return false with the state unchanged; otherwise write to every
connection of the user, counting successes, discard every failing connection
from the set (the entry itself is kept, even when it empties), and return
whether at least one write succeeded. -/
def send_notification_to_user (s : NotifState) (user_id : String)
    (send_ok : Nat → Bool) : Bool × NotifState × List Nat :=
  match alookup s user_id with
  | none => (false, s, [])
  | some conns =>
      let delivered := conns.filter send_ok
      (decide (0 < delivered.length), aset s user_id delivered, delivered)

end NotificationManager

/-- A concrete send outcome: only connection 1 accepts the write. -/
def send_ok_one : Nat → Bool := fun c => decide (c = 1)

/-- A concrete send outcome: every write fails. -/
def send_fail_all : Nat → Bool := fun _ => false

/-- C10: send_notification_to_user is total on every input (the model of a
call that never raises): it returns true exactly when the user has an entry
and the payload was written successfully to at least one of that user's
connections, and with no entry for the user it returns false leaving the
registry untouched. -/
theorem send_notification_result (s : NotifState) (user_id : String)
    (send_ok : Nat → Bool) :
    ((NotificationManager.send_notification_to_user s user_id send_ok).fst = true
      ↔ ∃ conns, alookup s user_id = some conns ∧ ∃ c ∈ conns, send_ok c = true)
    ∧ (alookup s user_id = none →
        NotificationManager.send_notification_to_user s user_id send_ok
          = (false, s, [])) := by
  constructor
  · cases h : alookup s user_id with
    | none => simp [NotificationManager.send_notification_to_user, h]
    | some conns =>
        have hiff : (0 < (conns.filter send_ok).length)
            ↔ ∃ c ∈ conns, send_ok c = true := by
          rw [List.length_pos]
          constructor
          · intro hne
            obtain ⟨x, hx⟩ := List.exists_mem_of_ne_nil _ hne
            rw [List.mem_filter] at hx
            exact ⟨x, hx.1, hx.2⟩
          · rintro ⟨c, hc, hok⟩
            intro hnil
            have hmem : c ∈ conns.filter send_ok := List.mem_filter.mpr ⟨hc, hok⟩
            rw [hnil] at hmem
            cases hmem
        simp [NotificationManager.send_notification_to_user, h, hiff]
  · intro h
    simp [NotificationManager.send_notification_to_user, h]

/-- Witness for send_notification_result: with connections 0 and 1 of which
only 1 accepts, the push reports true; for an unknown user it reports false
and changes nothing. -/
theorem send_notification_result_witness :
    (NotificationManager.send_notification_to_user [("u", [0, 1])] "u"
        send_ok_one).fst = true
    ∧ NotificationManager.send_notification_to_user [("u", [0, 1])] "v"
        send_ok_one = (false, [("u", [0, 1])], []) := by
  constructor
  · exact (send_notification_result [("u", [0, 1])] "u" send_ok_one).1.mpr
      ⟨[0, 1], by decide, 1, by decide, by decide⟩
  · exact (send_notification_result [("u", [0, 1])] "v" send_ok_one).2 (by decide)

/-- C8 counterexample: user u has the single connection 0, every write
fails; send_notification_to_user removes the failing connection but keeps
the user's entry, leaving u mapped to an empty set — the claimed empty-set
removal after the failure path does not hold. -/
theorem notification_registry_counterexample :
    alookup (NotificationManager.send_notification_to_user [("u", [0])] "u"
        send_fail_all).snd.fst "u" = some []
    ∧ no_empty_users (NotificationManager.send_notification_to_user [("u", [0])] "u"
        send_fail_all).snd.fst = false := by
  exact ⟨by decide, by decide⟩

/-- C8 (amended): per-connection failure isolation holds — every connection
whose write succeeds receives the payload whatever happens on the others,
and the failing connections are removed from the user's set — and the
empty-set-removal invariant holds for connect and disconnect (disconnect of
the last connection deletes the user's entry); but the failure-removal path
of send_notification_to_user keeps the user's entry even when every
connection failed, so that path can leave a user id mapped to an empty
set. -/
theorem notification_registry_amended (s : NotifState) (ws : Nat) (user_id : String)
    (send_ok : Nat → Bool) :
    (∀ conns, alookup s user_id = some conns →
        (NotificationManager.send_notification_to_user s user_id send_ok).snd.snd
            = conns.filter send_ok
        ∧ (NotificationManager.send_notification_to_user s user_id send_ok).snd.fst
            = aset s user_id (conns.filter send_ok))
    ∧ (no_empty_users s = true →
        no_empty_users (NotificationManager.connect s ws user_id) = true)
    ∧ (no_empty_users s = true →
        no_empty_users (NotificationManager.disconnect s ws user_id) = true)
    ∧ (∀ conns, alookup s user_id = some conns → setDiscard conns ws = [] →
        alookup (NotificationManager.disconnect s ws user_id) user_id = none) := by
  refine ⟨?_, ?_, ?_, ?_⟩
  · intro conns h
    simp [NotificationManager.send_notification_to_user, h]
  · intro hne
    simp only [NotificationManager.connect]
    cases h : alookup s user_id with
    | none => exact all_aset _ _ _ _ hne (by simp)
    | some conns =>
        refine all_aset _ _ _ _ hne ?_
        by_cases hmem : ws ∈ conns
        · simp only [setAdd, if_pos hmem]
          cases conns with
          | nil => cases hmem
          | cons a l => simp
        · simp [setAdd, hmem]
  · intro hne
    simp only [NotificationManager.disconnect]
    cases h : alookup s user_id with
    | none => exact hne
    | some conns =>
        by_cases hemp : (setDiscard conns ws).isEmpty
        · simp only [hemp, if_pos rfl]
          exact all_adel _ _ _ hne
        · simp only [hemp, Bool.false_eq_true, if_false]
          refine all_aset _ _ _ _ hne ?_
          simp only [Bool.not_eq_true'] at hemp ⊢
          simpa using hemp
  · intro conns h hlast
    simp only [NotificationManager.disconnect, h, hlast]
    simp [alookup_adel_self]

/-- Witness for notification_registry_amended at concrete registries:
delivery and removal on a two-connection user with one failing write,
invariant preservation for connect and disconnect, and deletion of the entry
when the last connection leaves. -/
theorem notification_registry_amended_witness :
    ((NotificationManager.send_notification_to_user [("u", [0, 1])] "u"
        send_ok_one).snd.snd = [1]
      ∧ (NotificationManager.send_notification_to_user [("u", [0, 1])] "u"
          send_ok_one).snd.fst = aset [("u", [0, 1])] "u" [1])
    ∧ no_empty_users (NotificationManager.connect [("u", [1])] 5 "v") = true
    ∧ no_empty_users (NotificationManager.disconnect [("u", [1])] 1 "u") = true
    ∧ alookup (NotificationManager.disconnect [("u", [1])] 1 "u") "u" = none := by
  refine ⟨?_, ?_, ?_, ?_⟩
  · have h := (notification_registry_amended [("u", [0, 1])] 0 "u" send_ok_one).1
      [0, 1] (by decide)
    constructor
    · rw [h.1]
      rfl
    · rw [h.2]
      rfl
  · exact (notification_registry_amended [("u", [1])] 5 "v" send_ok_one).2.1 (by decide)
  · exact (notification_registry_amended [("u", [1])] 1 "u" send_ok_one).2.2.1 (by decide)
  · exact (notification_registry_amended [("u", [1])] 1 "u" send_ok_one).2.2.2
      [1] (by decide) (by decide)

/-! ## Queue consumer retry handling (services/rabbitmq.py,
RabbitMQService.consume_notifications and publish_message_notification)

A queued event is its JSON payload, reduced to the fields the retry logic
touches: the optional retry_count and timestamp entries, plus the remaining
payload kept abstract.  publish_message_notification builds the published
body as the loose-update of the input with a fresh timestamp and with
retry_count set to 0 — the spread puts retry_count LAST, so it overwrites
whatever retry_count the input carried.  The consumer's message_handler runs
the callback inside message.process() (which acknowledges on exit): a
decode error or a raised callback is caught, logged and acknowledged with no
requeue; a callback returning False republishes through
publish_message_notification when the incoming retry_count is below 3 and
just acknowledges otherwise. -/

/-- A queued notification event payload. -/
structure NotifEventMsg where
  retry_count : Option Nat
  timestamp : Option String
  rest : List (String × String)
deriving DecidableEq, Repr

/-- The payload constructed by publish_message_notification: input fields,
then a fresh timestamp, then retry_count is set to 0 (overwriting any
incoming retry_count, because it appears after the dict spread). -/
def publish_payload (d : NotifEventMsg) (now : String) : NotifEventMsg :=
  { d with timestamp := some now, retry_count := some 0 }

/-- How the processing callback ended for one delivery. -/
inductive CallbackOutcome where
  | success
  | failure
  | raised
  | badJson
deriving DecidableEq, Repr

/-- What the consumer did with the delivery: acknowledge it, possibly after
republishing a copy. -/
inductive ConsumeResult where
  | acked
  | ackedAfterRequeue (republished : NotifEventMsg)
deriving DecidableEq, Repr

/-- Translation of the message_handler closure of consume_notifications. -/
def message_handler (data : NotifEventMsg) (outcome : CallbackOutcome)
    (now : String) : ConsumeResult :=
  match outcome with
  | .badJson => .acked
  | .raised => .acked
  | .success => .acked
  | .failure =>
      let retry_count := data.retry_count.getD 0
      if retry_count < 3 then
        .ackedAfterRequeue
          (publish_payload { data with retry_count := some (retry_count + 1) } now)
      else .acked

/-- C1 evaluation at the failing inputs: an event carrying retry_count 2
whose callback fails is republished with retry_count 0 (the increment to 3
is overwritten by publish_message_notification), the republished copy fails
again and is republished with retry_count 0 once more (so the cap of 3 is
never reached and the event is reprocessed without bound), and an event
whose callback raises is acknowledged with no requeue at all. -/
theorem consume_requeue_resets_retry_count :
    message_handler ⟨some 2, none, []⟩ .failure "t1"
        = .ackedAfterRequeue ⟨some 0, some "t1", []⟩
    ∧ message_handler ⟨some 0, some "t1", []⟩ .failure "t2"
        = .ackedAfterRequeue ⟨some 0, some "t2", []⟩
    ∧ message_handler ⟨some 0, none, []⟩ .raised "t1" = .acked := by
  exact ⟨rfl, rfl, rfl⟩

/-! ## Notification publishing with synchronous fallback
(services/message_service.py, MessageService.create_message_notification and
_create_notifications_fallback; services/notification_worker.py,
NotificationWorker.process_notification)

Ids are their string forms (uuids are nonempty strings).  The publish
outcome is the boolean returned by publish_message_notification; the
database write is assumed to succeed, and the per-recipient push and email
deliveries create no Notification rows.  Notification rows are reduced to
the recipient, type and status fields; the JSON content blob (message id,
sender info, preview) is built identically on both paths and is not
compared by any claim. -/

/-- A persisted Notification row, reduced to recipient, type and status. -/
structure NotifRow where
  user_id : String
  ntype : String
  status : String
deriving DecidableEq, Repr

/-- The sender_info dict built by create_message_notification. -/
structure SenderInfoRec where
  user_id : String
  username : String
  display_name : String
deriving DecidableEq, Repr

/-- The message-notification payload assembled by the module-level
publish_message_notification helper and stamped by the service with
retry_count 0. -/
structure MsgNotifPayload where
  ntype : String
  message_id : String
  room_id : String
  sender_id : String
  recipient_ids : List String
  message_content : String
  sender_info : SenderInfoRec
  retry_count : Nat
deriving DecidableEq, Repr

/-- The notification_data dict of the publish_message_notification helper
(type new_message), with the queue stamp retry_count 0. -/
def mk_notification_data (msg : MsgRow) (recipient_ids : List String)
    (sender_info : SenderInfoRec) : MsgNotifPayload :=
  ⟨"new_message", msg.message_id, msg.room_id, msg.sender_id, recipient_ids,
    msg.content, sender_info, 0⟩

/-- MessageService._create_notifications_fallback: one PENDING new_message
Notification row per recipient, written directly. -/
def create_notifications_fallback (recipient_ids : List String) : List NotifRow :=
  recipient_ids.map (fun rid => ⟨rid, "new_message", "pending"⟩)

/-- MessageService.create_message_notification: return without doing
anything when the sender row is missing or when no recipient remains after
excluding the sender; otherwise publish the payload, and on a false publish
result fall back to direct row creation.  Returns the rows this caller
persisted and the payload actually enqueued. -/
def create_message_notification (msg : MsgRow) (sender : Option SenderInfoRec)
    (room_participants : List String) (publish_ok : Bool) :
    List NotifRow × Option MsgNotifPayload :=
  match sender with
  | none => ([], none)
  | some sender_info =>
      let recipient_ids := room_participants.filter (fun pid => pid ≠ msg.sender_id)
      if recipient_ids.isEmpty then ([], none)
      else if publish_ok then ([], some (mk_notification_data msg recipient_ids sender_info))
      else (create_notifications_fallback recipient_ids, none)

/-- NotificationWorker._process_message_notification with the database write
succeeding: a payload with a falsy required field is acknowledged with no
rows; otherwise one PENDING new_message row is created per recipient id of
the payload. -/
def process_message_notification (p : MsgNotifPayload) : Bool × List NotifRow :=
  if p.message_id ≠ "" ∧ p.room_id ≠ "" ∧ p.sender_id ≠ ""
      ∧ ¬ p.recipient_ids.isEmpty then
    (true, p.recipient_ids.map (fun rid => ⟨rid, "new_message", "pending"⟩))
  else (true, [])

/-- NotificationWorker.process_notification, dispatching on the payload
type.  A message-notification payload always carries type new_message; the
room_invite and friend_request arms operate on payload shapes this model
does not construct, and an unknown type is acknowledged with no rows. -/
def process_notification (p : MsgNotifPayload) : Bool × List NotifRow :=
  if p.ntype = "new_message" then process_message_notification p
  else (true, [])

theorem map_user_id_rows (l : List String) :
    (l.map (fun rid => (⟨rid, "new_message", "pending"⟩ : NotifRow))).map
      (fun row => row.user_id) = l := by
  induction l with
  | nil => rfl
  | cons a t ih => simp [ih]

theorem process_message_notification_rows (p : MsgNotifPayload)
    (hm : p.message_id ≠ "") (hr : p.room_id ≠ "") (hs : p.sender_id ≠ "")
    (hrec : p.recipient_ids.isEmpty = false) :
    (process_message_notification p).snd.map (fun row => row.user_id)
      = p.recipient_ids := by
  simp only [process_message_notification]
  rw [if_pos ⟨hm, hr, hs, by simp [hrec]⟩]
  exact map_user_id_rows _

/-- C3: with the sender row present and the message ids nonempty (stringified
uuids), the set of recipients that end up with a persisted Notification row
is the intended one — every room participant except the sender — on both
paths: the fallback rows written when publish fails cover exactly those
recipients, and when publish succeeds the worker creates rows for exactly
those recipients from the enqueued payload. -/
theorem notification_fallback_recipients (msg : MsgRow) (sender_info : SenderInfoRec)
    (room_participants : List String)
    (hm : msg.message_id ≠ "") (hr : msg.room_id ≠ "") (hs : msg.sender_id ≠ "") :
    ((create_message_notification msg (some sender_info) room_participants false).fst.map
        (fun row => row.user_id)
      = room_participants.filter (fun pid => pid ≠ msg.sender_id))
    ∧ (∀ p, (create_message_notification msg (some sender_info) room_participants
          true).snd = some p →
        (process_notification p).snd.map (fun row => row.user_id)
          = room_participants.filter (fun pid => pid ≠ msg.sender_id)) := by
  by_cases hemp : (room_participants.filter (fun pid => pid ≠ msg.sender_id)).isEmpty
  · have hnil : room_participants.filter (fun pid => pid ≠ msg.sender_id) = [] :=
      List.isEmpty_iff.mp hemp
    constructor
    · simp only [create_message_notification, hemp, if_pos rfl]
      simpa using hnil.symm
    · intro p hp
      simp only [create_message_notification, hemp, if_pos rfl] at hp
      cases hp
  · have hbool : (room_participants.filter (fun pid => pid ≠ msg.sender_id)).isEmpty
        = false := by
      simpa using hemp
    constructor
    · simp only [create_message_notification, hbool, Bool.false_eq_true, if_false,
        create_notifications_fallback]
      exact map_user_id_rows _
    · intro p hp
      have hp' : p = mk_notification_data msg
          (room_participants.filter (fun pid => pid ≠ msg.sender_id)) sender_info := by
        simp only [create_message_notification, hbool, Bool.false_eq_true, if_false,
          if_true, Option.some.injEq] at hp
        exact hp.symm
      subst hp'
      simp only [process_notification, mk_notification_data, if_pos rfl]
      exact process_message_notification_rows _ hm hr hs hbool

/-- Witness for notification_fallback_recipients: participants a, b, c with
sender a; the fallback writes rows for b and c, and on the success path the
worker writes rows for b and c from the enqueued payload. -/
theorem notification_fallback_recipients_witness :
    ((create_message_notification ⟨"m1", "r", "a", "hello"⟩
        (some ⟨"a", "alice", "Alice"⟩) ["a", "b", "c"] false).fst.map
        (fun row => row.user_id) = ["b", "c"])
    ∧ ((process_notification
          (mk_notification_data ⟨"m1", "r", "a", "hello"⟩ ["b", "c"]
            ⟨"a", "alice", "Alice"⟩)).snd.map (fun row => row.user_id) = ["b", "c"]) := by
  have h := notification_fallback_recipients ⟨"m1", "r", "a", "hello"⟩
    ⟨"a", "alice", "Alice"⟩ ["a", "b", "c"] (by decide) (by decide) (by decide)
  constructor
  · rw [h.1]
    decide
  · have h2 := h.2 (mk_notification_data ⟨"m1", "r", "a", "hello"⟩ ["b", "c"]
      ⟨"a", "alice", "Alice"⟩) (by rfl)
    rw [h2]
    decide

end RealtimeMessaging
